import Mathlib

/-!
Verification development for the record-and-replay call fixture engine of
`ts-testing-playground`. The definitions below are shallow embeddings of the
TypeScript sources (`src/json-equals.ts`, `src/mock-fn-record-and-replay.ts`,
and the refactored `jsonEquals` variant); the theorems settle the spec claims
about them.
-/

/-- JSON-like values (`JsonValue` in `src/json-equals.ts`): string, number,
boolean, null, array, or string-keyed object. Objects are modelled as
association lists; a JavaScript runtime object cannot hold two properties with
the same key, which is captured by `Json.WF`. JSON numbers are modelled as
integers (the repository stores only integral numbers and the claims use only
their equality). -/
inductive Json where
  | str : String → Json
  | num : Int → Json
  | bool : Bool → Json
  | null : Json
  | arr : List Json → Json
  | obj : List (String × Json) → Json

/-- JavaScript property read `o[k]` on an association-list object: first
binding wins (a real JS object has unique keys, so this is exact). Reading an
absent key is modelled as `null`; both implementations only read keys they
have just checked to be present, so the default is never observed. -/
def objGet (xs : List (String × Json)) (k : String) : Json :=
  match xs.lookup k with
  | some v => v
  | none => Json.null

/-- JavaScript `k in o`: does the object have a property named `k`. -/
def containsKey (xs : List (String × Json)) (k : String) : Bool :=
  (xs.lookup k).isSome

theorem sizeOf_objGet (xs : List (String × Json)) (k : String) :
    sizeOf (objGet xs k) < 1 + sizeOf xs := by
  induction xs with
  | nil => simp [objGet, List.lookup]
  | cons p ps ih =>
      obtain ⟨k', v⟩ := p
      simp only [objGet, List.lookup] at *
      by_cases h : k == k'
      · simp only [h, if_pos] at *
        simp
        omega
      · simp only [h] at *
        simp only [Bool.false_eq_true, if_neg, not_false_iff] at *
        simp
        omega

/-- `Array.prototype.sort()` with the default comparator applied to object
keys (`Object.keys(o).sort()` in `src/json-equals.ts`): the keys in
nondecreasing string order. Modelled by insertion sort, which produces the
same sorted arrangement as the JS engine's sort (sorting strings by a total
order is deterministic up to equal elements). -/
def sortStrings (l : List String) : List String :=
  List.insertionSort (· ≤ ·) l

/-- `jsonEquals` from `src/json-equals.ts`: deep by-value equality over
JSON-like values. The source's `a === b` fast path returns true only on
reference-equal (hence structurally equal) values, which the structural cases
below decide identically, so it is not a separate case; the
`getType`-mismatch check is the catch-all `false` case together with the
per-constructor matching. -/
def jsonEquals : Json → Json → Bool
  | .null, .null => true
  | .str a, .str b => a == b
  | .num a, .num b => a == b
  | .bool a, .bool b => a == b
  | .arr as, .arr bs =>
      as.length == bs.length &&
        (as.zip bs).attach.all fun p => jsonEquals p.1.1 p.1.2
  | .obj as, .obj bs =>
      let keysA := sortStrings (as.map Prod.fst)
      let keysB := sortStrings (bs.map Prod.fst)
      keysA.length == keysB.length &&
        (keysA.zip keysB).all fun p =>
          p.1 == p.2 && jsonEquals (objGet as p.1) (objGet bs p.1)
  | _, _ => false
termination_by a b => sizeOf a + sizeOf b
decreasing_by
  · obtain ⟨⟨x, y⟩, hp⟩ := p
    obtain ⟨hmem1, hmem2⟩ := List.of_mem_zip hp
    have h1 := List.sizeOf_lt_of_mem hmem1
    have h2 := List.sizeOf_lt_of_mem hmem2
    simp only [Json.arr.sizeOf_spec]
    simp only at h1 h2 ⊢
    omega
  · have h1 := sizeOf_objGet as p.1
    have h2 := sizeOf_objGet bs p.1
    simp only [Json.obj.sizeOf_spec]
    omega

/-- `jsonEquals` from the refactored variant (`src/unnamed/part_000`), with
its helpers `arrayEquals` and `objectEquals`. `objectEquals` iterates
`Object.entries(objA)` (the association list itself) and checks `key in objB`
followed by a recursive comparison against `objB[key]`. -/
def jsonEqualsR : Json → Json → Bool
  | .null, .null => true
  | .str a, .str b => a == b
  | .num a, .num b => a == b
  | .bool a, .bool b => a == b
  | .arr as, .arr bs =>
      as.length == bs.length &&
        (as.zip bs).attach.all fun p => jsonEqualsR p.1.1 p.1.2
  | .obj as, .obj bs =>
      (as.map Prod.fst).length == (bs.map Prod.fst).length &&
        as.attach.all fun p =>
          containsKey bs p.1.1 && jsonEqualsR p.1.2 (objGet bs p.1.1)
  | _, _ => false
termination_by a b => sizeOf a + sizeOf b
decreasing_by
  · obtain ⟨⟨x, y⟩, hp⟩ := p
    obtain ⟨hmem1, hmem2⟩ := List.of_mem_zip hp
    have h1 := List.sizeOf_lt_of_mem hmem1
    have h2 := List.sizeOf_lt_of_mem hmem2
    simp only [Json.arr.sizeOf_spec]
    simp only at h1 h2 ⊢
    omega
  · obtain ⟨⟨k, v⟩, hp⟩ := p
    have h1 := List.sizeOf_lt_of_mem hp
    have h2 := sizeOf_objGet bs k
    simp only [Json.obj.sizeOf_spec]
    simp only at h1 h2 ⊢
    simp [Prod.mk.sizeOf_spec] at h1
    omega

/-- Well-formed JSON-like value: every object node has pairwise distinct
keys. Every value that actually arises from a JavaScript object satisfies
this, because a JS object cannot hold two properties with the same key. -/
inductive Json.WF : Json → Prop where
  | str (s : String) : Json.WF (.str s)
  | num (n : Int) : Json.WF (.num n)
  | bool (b : Bool) : Json.WF (.bool b)
  | null : Json.WF .null
  | arr {xs : List Json} : (∀ x ∈ xs, Json.WF x) → Json.WF (.arr xs)
  | obj {xs : List (String × Json)} : (xs.map Prod.fst).Nodup →
      (∀ p ∈ xs, Json.WF p.2) → Json.WF (.obj xs)

theorem sortStrings_perm (l : List String) : (sortStrings l).Perm l :=
  List.perm_insertionSort _ l

theorem sortStrings_sorted (l : List String) : (sortStrings l).Sorted (· ≤ ·) :=
  List.sorted_insertionSort _ l

theorem sortStrings_eq_of_perm {l₁ l₂ : List String} (h : l₁.Perm l₂) :
    sortStrings l₁ = sortStrings l₂ :=
  List.eq_of_perm_of_sorted
    (((sortStrings_perm l₁).trans h).trans (sortStrings_perm l₂).symm)
    (sortStrings_sorted l₁) (sortStrings_sorted l₂)

theorem lookup_eq_some_of_nodup {β : Type} {l : List (String × β)} {k : String} {v : β}
    (hnd : (l.map Prod.fst).Nodup) (h : (k, v) ∈ l) : l.lookup k = some v := by
  induction l with
  | nil => simp at h
  | cons p ps ih =>
    obtain ⟨k', v'⟩ := p
    simp only [List.map_cons, List.nodup_cons] at hnd
    rcases List.mem_cons.mp h with h1 | h1
    · rw [Prod.mk.injEq] at h1
      obtain ⟨rfl, rfl⟩ := h1
      simp [List.lookup]
    · have hk : k ≠ k' := by
        rintro rfl
        exact hnd.1 (List.mem_map_of_mem Prod.fst h1)
      have hbeq : (k == k') = false := by simp [hk]
      simp only [List.lookup, hbeq]
      exact ih hnd.2 h1

theorem mem_of_lookup_eq_some {β : Type} {l : List (String × β)} {k : String} {v : β}
    (h : l.lookup k = some v) : (k, v) ∈ l := by
  induction l with
  | nil => simp [List.lookup] at h
  | cons p ps ih =>
    obtain ⟨k', v'⟩ := p
    by_cases hk : k == k'
    · simp only [List.lookup, hk, if_pos, Option.some.injEq] at h
      subst h
      exact List.mem_cons.mpr (Or.inl (by rw [Prod.mk.injEq]; exact ⟨by simpa using hk, rfl⟩))
    · simp only [List.lookup, Bool.not_eq_true] at h hk
      rw [hk] at h
      exact List.mem_cons.mpr (Or.inr (ih h))

theorem lookup_isSome_iff {β : Type} (l : List (String × β)) (k : String) :
    (l.lookup k).isSome ↔ k ∈ l.map Prod.fst := by
  induction l with
  | nil => simp [List.lookup]
  | cons p ps ih =>
    obtain ⟨k', v'⟩ := p
    by_cases h : k = k'
    · subst h; simp [List.lookup]
    · have hbeq : (k == k') = false := by simp [h]
      simp [List.lookup, hbeq, ih, h]

theorem objGet_eq_of_mem {l : List (String × Json)} {k : String} {v : Json}
    (hnd : (l.map Prod.fst).Nodup) (h : (k, v) ∈ l) : objGet l k = v := by
  simp [objGet, lookup_eq_some_of_nodup hnd h]

theorem objGet_null_or_mem (l : List (String × Json)) (k : String) :
    objGet l k = Json.null ∨ (k, objGet l k) ∈ l := by
  unfold objGet
  cases h : l.lookup k with
  | none => exact Or.inl rfl
  | some v => exact Or.inr (mem_of_lookup_eq_some h)

theorem eq_of_zip_forall_eq {α : Type} :
    ∀ {l₁ l₂ : List α}, l₁.length = l₂.length → (∀ p ∈ l₁.zip l₂, p.1 = p.2) → l₁ = l₂
  | [], [], _, _ => rfl
  | a :: as, b :: bs, hlen, hall => by
    have h1 : a = b := hall (a, b) (List.mem_cons_self _ _)
    have h2 : as = bs :=
      eq_of_zip_forall_eq (by simpa using hlen)
        (fun p hp => hall p (List.mem_cons_of_mem _ hp))
    rw [h1, h2]

theorem mem_zip_self {α : Type} {a : α} {l : List α} (h : a ∈ l) : (a, a) ∈ l.zip l := by
  induction l with
  | nil => simp at h
  | cons x xs ih =>
    rcases List.mem_cons.mp h with rfl | h1
    · simp [List.zip]
    · exact List.mem_cons_of_mem _ (ih h1)

theorem zip_self_mem {α : Type} {p : α × α} {l : List α} (h : p ∈ l.zip l) :
    p.1 = p.2 ∧ p.1 ∈ l := by
  induction l with
  | nil => simp [List.zip] at h
  | cons x xs ih =>
    rcases List.mem_cons.mp h with h1 | h1
    · subst h1; exact ⟨rfl, List.mem_cons_self _ _⟩
    · obtain ⟨he, hm⟩ := ih h1
      exact ⟨he, List.mem_cons_of_mem _ hm⟩

theorem jsonEquals_arr_iff (as bs : List Json) :
    jsonEquals (.arr as) (.arr bs) = true ↔
      as.length = bs.length ∧ ∀ p ∈ as.zip bs, jsonEquals p.1 p.2 = true := by
  rw [jsonEquals]
  simp [List.all_eq_true]

theorem jsonEquals_obj_iff (as bs : List (String × Json)) :
    jsonEquals (.obj as) (.obj bs) = true ↔
      sortStrings (as.map Prod.fst) = sortStrings (bs.map Prod.fst) ∧
      ∀ k ∈ as.map Prod.fst, jsonEquals (objGet as k) (objGet bs k) = true := by
  rw [jsonEquals]
  simp only [List.all_eq_true, Bool.and_eq_true, beq_iff_eq]
  constructor
  · rintro ⟨hlen, hall⟩
    have hkeys : sortStrings (as.map Prod.fst) = sortStrings (bs.map Prod.fst) :=
      eq_of_zip_forall_eq hlen (fun p hp => by simpa using (hall p hp).1)
    refine ⟨hkeys, fun k hk => ?_⟩
    have hk' : k ∈ sortStrings (as.map Prod.fst) := (sortStrings_perm _).mem_iff.mpr hk
    have hzip : (k, k) ∈ (sortStrings (as.map Prod.fst)).zip (sortStrings (bs.map Prod.fst)) := by
      rw [← hkeys]; exact mem_zip_self hk'
    exact (hall (k, k) hzip).2
  · rintro ⟨hkeys, hall⟩
    refine ⟨by rw [hkeys], fun p hp => ?_⟩
    rw [← hkeys] at hp
    obtain ⟨heq, hm⟩ := zip_self_mem hp
    have hmk : p.1 ∈ as.map Prod.fst := (sortStrings_perm _).mem_iff.mp hm
    exact ⟨by simpa using heq, hall p.1 hmk⟩

theorem jsonEqualsR_arr_iff (as bs : List Json) :
    jsonEqualsR (.arr as) (.arr bs) = true ↔
      as.length = bs.length ∧ ∀ p ∈ as.zip bs, jsonEqualsR p.1 p.2 = true := by
  rw [jsonEqualsR]
  simp [List.all_eq_true]

theorem jsonEqualsR_obj_iff (as bs : List (String × Json)) :
    jsonEqualsR (.obj as) (.obj bs) = true ↔
      as.length = bs.length ∧
      ∀ p ∈ as, containsKey bs p.1 = true ∧ jsonEqualsR p.2 (objGet bs p.1) = true := by
  rw [jsonEqualsR]
  simp [List.all_eq_true]

/-- `jsonEquals` is reflexive. -/
theorem jsonEquals_refl : ∀ (a : Json), jsonEquals a a = true
  | .null => by rw [jsonEquals]
  | .str s => by rw [jsonEquals]; simp
  | .num n => by rw [jsonEquals]; simp
  | .bool b => by rw [jsonEquals]; simp
  | .arr xs => by
      rw [jsonEquals_arr_iff]
      refine ⟨rfl, fun p hp => ?_⟩
      obtain ⟨heq, hm⟩ := zip_self_mem hp
      rw [heq]
      exact jsonEquals_refl p.2
  | .obj xs => by
      rw [jsonEquals_obj_iff]
      exact ⟨rfl, fun k _ => jsonEquals_refl (objGet xs k)⟩
termination_by a => sizeOf a
decreasing_by
  · have h1 := List.sizeOf_lt_of_mem hm
    rw [heq] at h1
    simp only [Json.arr.sizeOf_spec]
    omega
  · have h1 := sizeOf_objGet xs k
    simp only [Json.obj.sizeOf_spec]
    omega

theorem jsonEquals_true_symm : ∀ (a b : Json), jsonEquals a b = true → jsonEquals b a = true
  | .null, .null, _ => by rw [jsonEquals]
  | .str _, .str _, h => by
      rw [jsonEquals] at h ⊢
      simp at h ⊢
      exact h.symm
  | .num _, .num _, h => by
      rw [jsonEquals] at h ⊢
      simp at h ⊢
      exact h.symm
  | .bool _, .bool _, h => by
      rw [jsonEquals] at h ⊢
      simp at h ⊢
      exact h.symm
  | .arr as, .arr bs, h => by
      rw [jsonEquals_arr_iff] at h ⊢
      obtain ⟨hlen, hall⟩ := h
      refine ⟨hlen.symm, fun p hp => ?_⟩
      have hswap : p.swap ∈ as.zip bs := by
        rw [← List.zip_swap as bs] at hp
        obtain ⟨q, hq, hqs⟩ := List.mem_map.mp hp
        rw [← hqs]
        simpa using hq
      exact jsonEquals_true_symm p.2 p.1 (hall p.swap hswap)
  | .obj as, .obj bs, h => by
      rw [jsonEquals_obj_iff] at h ⊢
      obtain ⟨hkeys, hall⟩ := h
      refine ⟨hkeys.symm, fun k hk => ?_⟩
      have hk' : k ∈ as.map Prod.fst := by
        have h1 : k ∈ sortStrings (bs.map Prod.fst) := (sortStrings_perm _).mem_iff.mpr hk
        rw [← hkeys] at h1
        exact (sortStrings_perm _).mem_iff.mp h1
      exact jsonEquals_true_symm (objGet as k) (objGet bs k) (hall k hk')
  | .null, .str _, h | .null, .num _, h | .null, .bool _, h | .null, .arr _, h
  | .null, .obj _, h | .str _, .null, h | .str _, .num _, h | .str _, .bool _, h
  | .str _, .arr _, h | .str _, .obj _, h | .num _, .null, h | .num _, .str _, h
  | .num _, .bool _, h | .num _, .arr _, h | .num _, .obj _, h | .bool _, .null, h
  | .bool _, .str _, h | .bool _, .num _, h | .bool _, .arr _, h | .bool _, .obj _, h
  | .arr _, .null, h | .arr _, .str _, h | .arr _, .num _, h | .arr _, .bool _, h
  | .arr _, .obj _, h | .obj _, .null, h | .obj _, .str _, h | .obj _, .num _, h
  | .obj _, .bool _, h | .obj _, .arr _, h => by simp [jsonEquals] at h
termination_by a b => sizeOf a + sizeOf b
decreasing_by
  · obtain ⟨hm1, hm2⟩ := List.of_mem_zip hp
    have h1 := List.sizeOf_lt_of_mem hm1
    have h2 := List.sizeOf_lt_of_mem hm2
    simp only [Json.arr.sizeOf_spec]
    omega
  · have h1 := sizeOf_objGet as k
    have h2 := sizeOf_objGet bs k
    simp only [Json.obj.sizeOf_spec]
    omega

/-- `jsonEquals` is symmetric. -/
theorem jsonEquals_symm (a b : Json) : jsonEquals a b = jsonEquals b a := by
  rw [Bool.eq_iff_iff]
  exact ⟨jsonEquals_true_symm a b, jsonEquals_true_symm b a⟩

/-- `jsonEquals` does not care about the order of object keys: permuting the
(duplicate-free) property list of an object yields an equal value. -/
theorem jsonEquals_obj_perm {as bs : List (String × Json)}
    (hnd : (as.map Prod.fst).Nodup) (hperm : as.Perm bs) :
    jsonEquals (.obj as) (.obj bs) = true := by
  rw [jsonEquals_obj_iff]
  have hpk : (as.map Prod.fst).Perm (bs.map Prod.fst) := hperm.map _
  refine ⟨sortStrings_eq_of_perm hpk, fun k hk => ?_⟩
  obtain ⟨p, hpmem, hfst⟩ := List.mem_map.mp hk
  have hmem_as : (k, p.2) ∈ as := by rw [← hfst]; exact hpmem
  have hnd' : (bs.map Prod.fst).Nodup := hpk.nodup_iff.mp hnd
  have h1 : objGet as k = p.2 := objGet_eq_of_mem hnd hmem_as
  have h2 : objGet bs k = p.2 := objGet_eq_of_mem hnd' (hperm.mem_iff.mp hmem_as)
  rw [h1, h2]
  exact jsonEquals_refl p.2

theorem Json.WF.arr_elt {xs : List Json} (h : Json.WF (.arr xs)) {x : Json} (hx : x ∈ xs) :
    Json.WF x := by cases h with | arr h => exact h x hx

theorem Json.WF.obj_nodup {xs : List (String × Json)} (h : Json.WF (.obj xs)) :
    (xs.map Prod.fst).Nodup := by cases h with | obj h1 h2 => exact h1

theorem Json.WF.obj_val {xs : List (String × Json)} (h : Json.WF (.obj xs))
    {p : String × Json} (hp : p ∈ xs) : Json.WF p.2 := by
  cases h with | obj h1 h2 => exact h2 p hp

theorem wf_objGet {xs : List (String × Json)} (h : Json.WF (.obj xs)) (k : String) :
    Json.WF (objGet xs k) := by
  rcases objGet_null_or_mem xs k with h1 | h1
  · rw [h1]; exact Json.WF.null
  · exact h.obj_val h1

theorem containsKey_iff (bs : List (String × Json)) (k : String) :
    containsKey bs k = true ↔ k ∈ bs.map Prod.fst := by
  rw [containsKey]
  exact lookup_isSome_iff bs k

theorem exists_val_of_mem_keys {l : List (String × Json)} {k : String}
    (hk : k ∈ l.map Prod.fst) : ∃ v, (k, v) ∈ l := by
  obtain ⟨⟨k', v⟩, hp, rfl⟩ := List.mem_map.mp hk
  exact ⟨v, hp⟩

/-- The two implementations agree on all well-formed values. -/
theorem jsonEquals_eq_jsonEqualsR : ∀ (a b : Json), Json.WF a → Json.WF b →
    jsonEquals a b = jsonEqualsR a b
  | .null, .null, _, _ => by rw [jsonEquals, jsonEqualsR]
  | .str _, .str _, _, _ => by rw [jsonEquals, jsonEqualsR]
  | .num _, .num _, _, _ => by rw [jsonEquals, jsonEqualsR]
  | .bool _, .bool _, _, _ => by rw [jsonEquals, jsonEqualsR]
  | .arr as, .arr bs, ha, hb => by
      rw [Bool.eq_iff_iff, jsonEquals_arr_iff, jsonEqualsR_arr_iff]
      constructor
      · rintro ⟨hlen, hall⟩
        refine ⟨hlen, fun p hp => ?_⟩
        rw [← jsonEquals_eq_jsonEqualsR p.1 p.2 (ha.arr_elt (List.of_mem_zip hp).1)
          (hb.arr_elt (List.of_mem_zip hp).2)]
        exact hall p hp
      · rintro ⟨hlen, hall⟩
        refine ⟨hlen, fun p hp => ?_⟩
        rw [jsonEquals_eq_jsonEqualsR p.1 p.2 (ha.arr_elt (List.of_mem_zip hp).1)
          (hb.arr_elt (List.of_mem_zip hp).2)]
        exact hall p hp
  | .obj as, .obj bs, ha, hb => by
      rw [Bool.eq_iff_iff, jsonEquals_obj_iff, jsonEqualsR_obj_iff]
      constructor
      · rintro ⟨hsort, hall⟩
        have hperm : (as.map Prod.fst).Perm (bs.map Prod.fst) :=
          ((sortStrings_perm _).symm.trans (hsort ▸ sortStrings_perm _))
        refine ⟨by simpa using hperm.length_eq, ?_⟩
        rintro ⟨k, v⟩ hp
        have hkA : k ∈ as.map Prod.fst := List.mem_map_of_mem Prod.fst hp
        have hkB : k ∈ bs.map Prod.fst := hperm.mem_iff.mp hkA
        have hget : objGet as k = v := objGet_eq_of_mem ha.obj_nodup hp
        have hv : jsonEquals (objGet as k) (objGet bs k) = true := hall k hkA
        rw [hget] at hv
        refine ⟨(containsKey_iff bs k).mpr hkB, ?_⟩
        rw [← jsonEquals_eq_jsonEqualsR v (objGet bs k) (hget ▸ ha.obj_val hp)
          (wf_objGet hb k)]
        exact hv
      · rintro ⟨hlen, hall⟩
        have hsub : as.map Prod.fst ⊆ bs.map Prod.fst := by
          intro k hk
          obtain ⟨p, hp, hfst⟩ := List.mem_map.mp hk
          have := (hall p hp).1
          rw [containsKey_iff] at this
          rw [← hfst]
          exact this
        have hperm : (as.map Prod.fst).Perm (bs.map Prod.fst) :=
          (ha.obj_nodup.subperm hsub).perm_of_length_le (by simpa using hlen.ge)
        refine ⟨sortStrings_eq_of_perm hperm, fun k hk => ?_⟩
        obtain ⟨v, hp⟩ := exists_val_of_mem_keys hk
        have hget : objGet as k = v := objGet_eq_of_mem ha.obj_nodup hp
        have hv := (hall (k, v) hp).2
        rw [← jsonEquals_eq_jsonEqualsR v (objGet bs k) (ha.obj_val hp) (wf_objGet hb k)] at hv
        rw [hget]
        exact hv
  | .null, .str _, _, _ | .null, .num _, _, _ | .null, .bool _, _, _ | .null, .arr _, _, _
  | .null, .obj _, _, _ | .str _, .null, _, _ | .str _, .num _, _, _ | .str _, .bool _, _, _
  | .str _, .arr _, _, _ | .str _, .obj _, _, _ | .num _, .null, _, _ | .num _, .str _, _, _
  | .num _, .bool _, _, _ | .num _, .arr _, _, _ | .num _, .obj _, _, _ | .bool _, .null, _, _
  | .bool _, .str _, _, _ | .bool _, .num _, _, _ | .bool _, .arr _, _, _ | .bool _, .obj _, _, _
  | .arr _, .null, _, _ | .arr _, .str _, _, _ | .arr _, .num _, _, _ | .arr _, .bool _, _, _
  | .arr _, .obj _, _, _ | .obj _, .null, _, _ | .obj _, .str _, _, _ | .obj _, .num _, _, _
  | .obj _, .bool _, _, _ | .obj _, .arr _, _, _ => by simp [jsonEquals, jsonEqualsR]
termination_by a b => sizeOf a + sizeOf b
decreasing_by
  · obtain ⟨hm1, hm2⟩ := List.of_mem_zip hp
    have h1 := List.sizeOf_lt_of_mem hm1
    have h2 := List.sizeOf_lt_of_mem hm2
    simp only [Json.arr.sizeOf_spec]
    omega
  · obtain ⟨hm1, hm2⟩ := List.of_mem_zip hp
    have h1 := List.sizeOf_lt_of_mem hm1
    have h2 := List.sizeOf_lt_of_mem hm2
    simp only [Json.arr.sizeOf_spec]
    omega
  · have h1 := List.sizeOf_lt_of_mem hp
    have h2 := sizeOf_objGet bs k
    simp only [Json.obj.sizeOf_spec, Prod.mk.sizeOf_spec] at h1 ⊢
    omega
  · have h1 := List.sizeOf_lt_of_mem hp
    have h2 := sizeOf_objGet bs k
    simp only [Json.obj.sizeOf_spec, Prod.mk.sizeOf_spec] at h1 ⊢
    omega

/-- C5: jsonEquals is reflexive and symmetric, insensitive to object key
order, sensitive to array element order, and distinguishes null, false and 0
from one another. -/
theorem C5_jsonEquals_equivalence_properties :
    (∀ a : Json, jsonEquals a a = true) ∧
    (∀ a b : Json, jsonEquals a b = jsonEquals b a) ∧
    (∀ as bs : List (String × Json), (as.map Prod.fst).Nodup → as.Perm bs →
      jsonEquals (.obj as) (.obj bs) = true) ∧
    jsonEquals (.arr [.num 0, .num 1]) (.arr [.num 1, .num 0]) = false ∧
    jsonEquals .null (.bool false) = false ∧
    jsonEquals .null (.num 0) = false ∧
    jsonEquals (.bool false) (.num 0) = false := by
  refine ⟨jsonEquals_refl, jsonEquals_symm, fun as bs hnd hperm => jsonEquals_obj_perm hnd hperm,
    ?_, ?_, ?_, ?_⟩
  · simp [jsonEquals]
  · simp [jsonEquals]
  · simp [jsonEquals]
  · simp [jsonEquals]

/-- Witness for C5 at concrete inputs: the key-order conjunct applied to a
two-key object and its reversal. -/
theorem C5_witness :
    jsonEquals (.obj [("a", .num 1), ("b", .null)]) (.obj [("b", .null), ("a", .num 1)]) = true :=
  C5_jsonEquals_equivalence_properties.2.2.1 [("a", .num 1), ("b", .null)]
    [("b", .null), ("a", .num 1)] (by simp) (List.Perm.swap _ _ _)

/-- C9: the jsonEquals implementation of src/json-equals.ts and the
refactored implementation agree on every pair of JSON-like values (values a
JavaScript object can hold, i.e. with duplicate-free object keys). -/
theorem C9_refactored_jsonEquals_equivalent (a b : Json) (ha : Json.WF a) (hb : Json.WF b) :
    jsonEquals a b = jsonEqualsR a b :=
  jsonEquals_eq_jsonEqualsR a b ha hb

/-- Witness for C9 at a concrete pair of objects. -/
theorem C9_witness :
    jsonEquals (.obj [("a", .num 1)]) (.obj [("a", .num 1), ("b", .null)]) =
      jsonEqualsR (.obj [("a", .num 1)]) (.obj [("a", .num 1), ("b", .null)]) := by
  have w1 : Json.WF (.obj [("a", .num 1)]) := by
    refine Json.WF.obj (by simp) ?_
    intro p hp
    simp only [List.mem_singleton] at hp
    subst hp
    exact Json.WF.num 1
  have w2 : Json.WF (.obj [("a", .num 1), ("b", .null)]) := by
    refine Json.WF.obj (by simp) ?_
    intro p hp
    rcases List.mem_cons.mp hp with rfl | hp2
    · exact Json.WF.num 1
    · simp only [List.mem_singleton] at hp2
      subst hp2
      exact Json.WF.null
  exact C9_refactored_jsonEquals_equivalent _ _ w1 w2

/-- Decimal digits of a natural number, most significant first (empty for 0):
the digit sequence produced by JavaScript num.toString() for integers. -/
def natDigits : Nat → List Char
  | 0 => []
  | n + 1 => natDigits ((n + 1) / 10) ++ [Nat.digitChar ((n + 1) % 10)]
decreasing_by exact Nat.div_lt_self (Nat.succ_pos n) (by omega)

/-- JavaScript num.toString() for a natural number. -/
def natToString (n : Nat) : String :=
  if n = 0 then "0" else String.mk (natDigits n)

/-- JavaScript str.padStart(size, "0"). -/
def padStart (s : String) (size : Nat) : String :=
  String.mk (List.replicate (size - s.length) '0') ++ s

/-- padZeros from src/mock-fn-record-and-replay.ts:
num.toString().padStart(size, "0"). -/
def padZeros (num : Nat) (size : Nat) : String :=
  padStart (natToString num) size

/-- The snapshot filename computed by getSnapshotFile for the 0-based call
index: name-NNN.json where NNN is index+1 zero-padded to width 3. -/
def snapshotFileName (name : String) (index : Nat) : String :=
  name ++ "-" ++ padZeros (index + 1) 3 ++ ".json"

theorem natDigits_lt10 {n : Nat} (h1 : 1 ≤ n) (h2 : n < 10) :
    natDigits n = [Nat.digitChar n] := by
  obtain ⟨m, rfl⟩ : ∃ m, n = m + 1 := ⟨n - 1, by omega⟩
  rw [natDigits]
  have hd : (m + 1) / 10 = 0 := by omega
  have hm : (m + 1) % 10 = m + 1 := by omega
  rw [hd, hm, natDigits]
  rfl

theorem natDigits_lt100 {n : Nat} (h1 : 10 ≤ n) (h2 : n < 100) :
    natDigits n = [Nat.digitChar (n / 10), Nat.digitChar (n % 10)] := by
  obtain ⟨m, rfl⟩ : ∃ m, n = m + 1 := ⟨n - 1, by omega⟩
  rw [natDigits, natDigits_lt10 (by omega) (by omega)]
  rfl

theorem natDigits_lt1000 {n : Nat} (h1 : 100 ≤ n) (h2 : n < 1000) :
    natDigits n = [Nat.digitChar (n / 100), Nat.digitChar (n / 10 % 10), Nat.digitChar (n % 10)] := by
  obtain ⟨m, rfl⟩ : ∃ m, n = m + 1 := ⟨n - 1, by omega⟩
  rw [natDigits, natDigits_lt100 (by omega) (by omega)]
  have hdd : (m + 1) / 10 / 10 = (m + 1) / 100 := by omega
  have hdm : (m + 1) / 10 % 10 = (m + 1) / 10 % 10 := rfl
  rw [hdd]
  rfl

theorem padZeros3_data {N : Nat} (h1 : 1 ≤ N) (h2 : N ≤ 999) :
    (padZeros N 3).data =
      [Nat.digitChar (N / 100), Nat.digitChar (N / 10 % 10), Nat.digitChar (N % 10)] := by
  have hne : N ≠ 0 := by omega
  rw [padZeros, natToString, if_neg hne, padStart]
  by_cases ha : N < 10
  · rw [natDigits_lt10 h1 ha]
    have hN100 : N / 100 = 0 := by omega
    have hN10 : N / 10 % 10 = 0 := by omega
    have hNm : N % 10 = N := by omega
    rw [hN100, hN10, hNm]
    simp [String.data_append, List.replicate]
    rfl
  · by_cases hb : N < 100
    · rw [natDigits_lt100 (by omega) hb]
      have hN100 : N / 100 = 0 := by omega
      have hN10 : N / 10 % 10 = N / 10 := by omega
      rw [hN100, hN10]
      simp [String.data_append, List.replicate]
      rfl
    · rw [natDigits_lt1000 (by omega) (by omega)]
      simp [String.data_append, List.replicate]

theorem digitChar_lt {d1 d2 : Nat} (h1 : d1 < d2) (h2 : d2 < 10) :
    Nat.digitChar d1 < Nat.digitChar d2 := by
  have h0 : d1 < 10 := by omega
  interval_cases d1 <;> interval_cases d2 <;> decide

theorem lex_append_left (u : List Char) {v w : List Char}
    (h : List.Lex (· < ·) v w) : List.Lex (· < ·) (u ++ v) (u ++ w) := by
  induction u with
  | nil => exact h
  | cons c cs ih => exact List.Lex.cons ih

theorem lex_digits3 {M N : Nat} (hMN : M < N) (hN : N ≤ 999) (s t : List Char) :
    List.Lex (· < ·)
      (Nat.digitChar (M / 100) :: Nat.digitChar (M / 10 % 10) :: Nat.digitChar (M % 10) :: s)
      (Nat.digitChar (N / 100) :: Nat.digitChar (N / 10 % 10) :: Nat.digitChar (N % 10) :: t) := by
  rcases Nat.lt_trichotomy (M / 100) (N / 100) with h1 | h1 | h1
  · exact List.Lex.rel (digitChar_lt h1 (by omega))
  · rw [h1]
    rcases Nat.lt_trichotomy (M / 10 % 10) (N / 10 % 10) with h2 | h2 | h2
    · exact List.Lex.cons (List.Lex.rel (digitChar_lt h2 (by omega)))
    · rw [h2]
      have h3 : M % 10 < N % 10 := by omega
      exact List.Lex.cons (List.Lex.cons (List.Lex.rel (digitChar_lt h3 (by omega))))
    · exact absurd h2 (by omega)
  · exact absurd h1 (by omega)

theorem snapshotFileName_lt (name : String) (M N : Nat) (h1 : 1 ≤ M) (hMN : M < N)
    (hN : N ≤ 999) : snapshotFileName name (M - 1) < snapshotFileName name (N - 1) := by
  rw [String.lt_iff_toList_lt]
  show List.Lex (· < ·) (snapshotFileName name (M - 1)).data (snapshotFileName name (N - 1)).data
  have hM : M - 1 + 1 = M := by omega
  have hNn : N - 1 + 1 = N := by omega
  rw [snapshotFileName, snapshotFileName, hM, hNn]
  simp only [String.data_append, List.append_assoc]
  have hdM := padZeros3_data h1 (by omega : M ≤ 999)
  have hdN := padZeros3_data (by omega : 1 ≤ N) hN
  rw [hdM, hdN]
  apply lex_append_left
  show List.Lex (· < ·) ('-' :: _) ('-' :: _)
  apply List.Lex.cons
  simp only [List.cons_append]
  exact lex_digits3 hMN hN _ _

/-- C7: for every fixture name and 1-based call index N with 1 ≤ N ≤ 999, the
Nth invocation (0-based state index N-1) addresses the record file named
name-NNN.json where NNN is N zero-padded to width 3, and the filenames are
strictly increasing in N in lexicographic string order, so enumerating by
name prefix yields records in invocation order. -/
theorem C7_snapshot_file_naming (name : String) (N : Nat) (h1 : 1 ≤ N) (h2 : N ≤ 999) :
    snapshotFileName name (N - 1) = name ++ "-" ++ padZeros N 3 ++ ".json" ∧
    (padZeros N 3).data =
      [Nat.digitChar (N / 100), Nat.digitChar (N / 10 % 10), Nat.digitChar (N % 10)] ∧
    ∀ M, 1 ≤ M → M < N → snapshotFileName name (M - 1) < snapshotFileName name (N - 1) := by
  refine ⟨?_, padZeros3_data h1 h2, fun M hM1 hMN => snapshotFileName_lt name M N hM1 hMN h2⟩
  rw [snapshotFileName, Nat.sub_add_cancel h1]

/-- Witness for C7 at name div and N = 12. -/
theorem C7_witness :
    (1 : Nat) ≤ 12 ∧ (12 : Nat) ≤ 999 ∧
    (snapshotFileName "div" (12 - 1) = "div" ++ "-" ++ padZeros 12 3 ++ ".json" ∧
      (padZeros 12 3).data =
        [Nat.digitChar (12 / 100), Nat.digitChar (12 / 10 % 10), Nat.digitChar (12 % 10)] ∧
      ∀ M, 1 ≤ M → M < 12 → snapshotFileName "div" (M - 1) < snapshotFileName "div" (12 - 1)) :=
  ⟨by decide, by decide, C7_snapshot_file_naming "div" 12 (by decide) (by decide)⟩

/-- JavaScript String.prototype.startsWith: character-level prefix test. -/
def strStartsWith (s pre : String) : Bool :=
  pre.data.isPrefixOf s.data

/-- JavaScript String.prototype.endsWith: character-level suffix test. -/
def strEndsWith (s suf : String) : Bool :=
  suf.data.isSuffixOf s.data

/-- FulfillableResult from src/FulfillableMock.ts. -/
inductive FulfillableResult where
  | success : FulfillableResult
  | failure : String → FulfillableResult
deriving DecidableEq

/-- getSnapshotFiles from src/mock-fn-record-and-replay.ts: the files of the
snapshots folder whose name starts with the fixture name followed by a dash
and ends with .json. The folder is modelled as the list of its filenames; the
path join and relativisation of the source only re-prefix each name with the
folder path and are omitted. -/
def getSnapshotFiles (name : String) (folder : List String) : List String :=
  folder.filter fun filename =>
    strStartsWith filename (name ++ "-") && strEndsWith filename ".json"

/-- Array.prototype.join with a newline separator. -/
def joinLines : List String → String
  | [] => ""
  | [x] => x
  | x :: xs => x ++ "\n" ++ joinLines xs

/-- isMockFulfilled from src/mock-fn-record-and-replay.ts. -/
def isMockFulfilled (name : String) (callsCount : Nat) (folder : List String) :
    FulfillableResult :=
  let snapshotFiles := getSnapshotFiles name folder
  let missingCalls := (snapshotFiles.drop callsCount).map (fun s => "  - " ++ s)
  if missingCalls.length > 0 then
    .failure (joinLines
      [natToString callsCount ++ " of " ++ natToString snapshotFiles.length ++
        " calls were made.",
      "The following snapshot calls were missing:",
      joinLines missingCalls,
      "If they are no longer relevant, delete these files."])
  else
    .success

theorem joinLines_cons_cons (x y : String) (ys : List String) :
    joinLines (x :: y :: ys) = x ++ "\n" ++ joinLines (y :: ys) := rfl

theorem joinLines_infix {s : String} {l : List String} (hs : s ∈ l) :
    s.data <:+: (joinLines l).data := by
  induction l with
  | nil => simp at hs
  | cons x xs ih =>
    cases xs with
    | nil =>
      rw [List.mem_singleton] at hs
      subst hs
      exact List.infix_rfl
    | cons y ys =>
      rcases List.mem_cons.mp hs with rfl | hmem
      · rw [joinLines_cons_cons]
        simp only [String.data_append, List.append_assoc]
        exact (List.prefix_append s.data _).isInfix
      · rw [joinLines_cons_cons]
        simp only [String.data_append]
        exact ((ih hmem).trans (List.suffix_append _ _).isInfix)

theorem isMockFulfilled_success_iff (name : String) (callsCount : Nat) (folder : List String) :
    isMockFulfilled name callsCount folder = .success ↔
      (getSnapshotFiles name folder).length ≤ callsCount := by
  simp only [isMockFulfilled, List.length_map, List.length_drop, gt_iff_lt]
  split
  · next hpos =>
      constructor
      · intro hc
        simp at hc
      · intro hc
        exfalso
        omega
  · next hneg =>
      constructor
      · intro _
        omega
      · intro _
        rfl

theorem isMockFulfilled_names_missing (name : String) (callsCount : Nat) (folder : List String)
    {f : String} (hf : f ∈ (getSnapshotFiles name folder).drop callsCount) :
    ∃ msg, isMockFulfilled name callsCount folder = .failure msg ∧ f.data <:+: msg.data := by
  have hlen : 0 < (getSnapshotFiles name folder).length - callsCount := by
    have := List.length_pos.mpr (List.ne_nil_of_mem hf)
    rw [List.length_drop] at this
    exact this
  simp only [isMockFulfilled, List.length_map, List.length_drop, gt_iff_lt, if_pos hlen]
  refine ⟨_, rfl, ?_⟩
  have h1 : ("  - " ++ f) ∈ ((getSnapshotFiles name folder).drop callsCount).map
      (fun s => "  - " ++ s) := List.mem_map_of_mem _ hf
  have h2 := joinLines_infix h1
  have h3 : (joinLines (((getSnapshotFiles name folder).drop callsCount).map
      (fun s => "  - " ++ s))) ∈
      [natToString callsCount ++ " of " ++ natToString (getSnapshotFiles name folder).length ++
        " calls were made.",
      "The following snapshot calls were missing:",
      joinLines (((getSnapshotFiles name folder).drop callsCount).map (fun s => "  - " ++ s)),
      "If they are no longer relevant, delete these files."] := by simp
  have h4 := joinLines_infix h3
  have h5 : f.data <:+: ("  - " ++ f).data := by
    simp only [String.data_append]
    exact (List.suffix_append _ _).isInfix
  exact h5.trans (h2.trans h4)

/-- C4: for every fixture name, snapshots-folder state and consumed-call
count, isFulfilled succeeds exactly when the consumed count is at least the
number of stored record files for that name (more consumed than stored is
success, not a crash), and otherwise fails with an error message naming every
stored record beyond the highest consumed index. -/
theorem C4_isFulfilled_correct (name : String) (callsCount : Nat) (folder : List String) :
    (isMockFulfilled name callsCount folder = .success ↔
      (getSnapshotFiles name folder).length ≤ callsCount) ∧
    ∀ f ∈ (getSnapshotFiles name folder).drop callsCount,
      ∃ msg, isMockFulfilled name callsCount folder = .failure msg ∧ f.data <:+: msg.data :=
  ⟨isMockFulfilled_success_iff name callsCount folder,
    fun _ hf => isMockFulfilled_names_missing name callsCount folder hf⟩

/-- Witness for C4: three consumed calls against two records is success, and
with one consumed call the second record is reported missing. -/
theorem C4_witness :
    (isMockFulfilled "div" 3 ["div-001.json", "div-002.json"] = .success ↔
      (getSnapshotFiles "div" ["div-001.json", "div-002.json"]).length ≤ 3) ∧
    ∃ msg, isMockFulfilled "div" 1 ["div-001.json", "div-002.json"] = .failure msg ∧
      ("div-002.json" : String).data <:+: msg.data :=
  ⟨(C4_isFulfilled_correct "div" 3 ["div-001.json", "div-002.json"]).1,
   (C4_isFulfilled_correct "div" 1 ["div-001.json", "div-002.json"]).2 "div-002.json" (by decide)⟩

/-- C10: getSnapshotFiles counts as this fixture's stored records every .json
file whose name starts with the fixture name followed by a dash, so a record
file of a different fixture whose name extends this name (div-extra-001.json
for fixture div) is counted toward the stored-record total and can be
reported among the unconsumed records. -/
theorem C10_name_prefix_collision :
    (∀ (name : String) (folder : List String) (f : String),
      f ∈ getSnapshotFiles name folder ↔
        f ∈ folder ∧ strStartsWith f (name ++ "-") = true ∧ strEndsWith f ".json" = true) ∧
    getSnapshotFiles "div" ["div-001.json", "div-extra-001.json"] =
      ["div-001.json", "div-extra-001.json"] ∧
    ∃ msg, isMockFulfilled "div" 1 ["div-001.json", "div-extra-001.json"] = .failure msg ∧
      ("div-extra-001.json" : String).data <:+: msg.data := by
  refine ⟨?_, by decide, ?_⟩
  · intro name folder f
    simp [getSnapshotFiles, List.mem_filter]
  · exact isMockFulfilled_names_missing "div" 1 _ (by decide)

/-- Snapshot update mode, resolved once per invocation from the ambient
vitest configuration (none / new / all). -/
inductive Mode where
  | NONE : Mode
  | CREATE : Mode
  | CREATE_AND_UPDATE : Mode
deriving DecidableEq, BEq

/-- inMode of RecordAndReplayFn: modesToCheck.includes(mode). -/
def inMode (m : Mode) (modesToCheck : List Mode) : Bool :=
  modesToCheck.contains m

/-- The tagged result of a stored call record:
success true / data or success false / error. -/
inductive SResult where
  | success : Json → SResult
  | failure : Json → SResult

/-- SerializedCall: a stored call record, serialized args plus tagged
result. -/
structure SerializedCall where
  args : Json
  result : SResult

/-- MockState: the per-fixture-instance counters; new MockState() starts both
at zero. -/
structure MockState where
  updatedCount : Nat
  index : Nat

/-- new MockState(). -/
def mockStateInit : MockState := { updatedCount := 0, index := 0 }

/-- The snapshots folder as a mapping from filename to the well-formed record
stored there; none models both a missing file and a file whose content fails
isSerializedCall (the source logs and treats such content as absent). -/
abbrev Store := String → Option SerializedCall

/-- The outcome of the promise a fixture invocation produces, as thrown by
the real function, or how the wrapped vitest assertion settles: a resolved
value, a rejection with an error value, a failed snapshot comparison carrying
the proposed file content (expectResultToMatchSnapshot on a non-writing
path), or the explicit single-update guard error (the distinct message
telling the operator to rerun the test). -/
inductive StepOutcome (Ret Err : Type) where
  | value : Ret → StepOutcome Ret Err
  | thrown : Err → StepOutcome Ret Err
  | snapshotMismatch : SerializedCall → StepOutcome Ret Err
  | guardError : StepOutcome Ret Err

/-- The outcome the real function settles with for given arguments. -/
inductive FnOutcome (Ret Err : Type) where
  | ok : Ret → FnOutcome Ret Err
  | thrown : Err → FnOutcome Ret Err

/-- Options of recordAndReplayFnMock, with the real function given
denotationally by the outcome its promise settles with. -/
structure MockOptions (Args Ret Err : Type) where
  name : String
  fn : Args → FnOutcome Ret Err
  serializeArgs : Args → Json
  serializeSuccess : Ret → Json
  serializeError : Err → Json
  deserializeSuccess : Json → Ret
  deserializeError : Json → Err
  allowOnlyOneUpdatePerTest : Bool

/-- Everything one invocation of the mock produces: the observable outcome,
the state and store afterwards, how many times the real function ran during
the step, and whether the step persisted a record. -/
structure StepResult (Args Ret Err : Type) where
  outcome : StepOutcome Ret Err
  state : MockState
  store : Store
  fnCalls : Nat
  saved : Bool

/-- callFunctionAndSaveSnapshot: guard check against updatedCount, then
increment updatedCount, invoke the real function, persist the outcome under
the snapshot file and return or rethrow. guardFlag is the
allowOnlyOneUpdatePerTest value passed by the caller (hard-coded false for
creation, the configured value for update). -/
def callFunctionAndSaveSnapshot {A R E : Type} (o : MockOptions A R E) (args : A)
    (file : String) (guardFlag : Bool) (store : Store) (st : MockState) :
    StepResult A R E :=
  if guardFlag = true ∧ st.updatedCount > 0 then
    { outcome := .guardError, state := st, store := store, fnCalls := 0, saved := false }
  else
    let st2 : MockState := { st with updatedCount := st.updatedCount + 1 }
    match o.fn args with
    | .ok v =>
        { outcome := .value v, state := st2,
          store := fun f => if f = file then
            some ⟨o.serializeArgs args, .success (o.serializeSuccess v)⟩ else store f,
          fnCalls := 1, saved := true }
    | .thrown e =>
        { outcome := .thrown e, state := st2,
          store := fun f => if f = file then
            some ⟨o.serializeArgs args, .failure (o.serializeError e)⟩ else store f,
          fnCalls := 1, saved := true }

/-- One invocation of the mock: the RecordAndReplayFn constructor advances
the call index and resolves the snapshot file at the pre-increment index;
the switch of recordAndReplayFnMock then routes to create, fail, replay or
update. The decision chain mirrors the source switch(true) cases in order;
its default (unhandled state) cannot be reached because the three modes are
exhaustive, so it needs no representation. -/
def mockStep {A R E : Type} (o : MockOptions A R E) (mode : Mode) (store : Store)
    (st : MockState) (args : A) : StepResult A R E :=
  let currentIndex := st.index
  let st1 : MockState := { st with index := st.index + 1 }
  let file := snapshotFileName o.name currentIndex
  match store file with
  | none =>
      if inMode mode [.CREATE, .CREATE_AND_UPDATE] then
        callFunctionAndSaveSnapshot o args file false store st1
      else
        { outcome := .snapshotMismatch ⟨o.serializeArgs args, .success .null⟩,
          state := st1, store := store, fnCalls := 0, saved := false }
  | some call =>
      if jsonEquals (o.serializeArgs args) call.args then
        match call.result with
        | .success d =>
            { outcome := .value (o.deserializeSuccess d), state := st1, store := store,
              fnCalls := 0, saved := false }
        | .failure e =>
            { outcome := .thrown (o.deserializeError e), state := st1, store := store,
              fnCalls := 0, saved := false }
      else
        if inMode mode [.CREATE_AND_UPDATE] then
          callFunctionAndSaveSnapshot o args file o.allowOnlyOneUpdatePerTest store st1
        else
          { outcome := .snapshotMismatch ⟨o.serializeArgs args, call.result⟩,
            state := st1, store := store, fnCalls := 0, saved := false }

/-- A run: the fixture invoked on a sequence of calls, each with the mode
read for that invocation; returns the per-step results together with the
final store and state. -/
def runMock {A R E : Type} (o : MockOptions A R E) :
    List (Mode × A) → Store → MockState → List (StepResult A R E) × Store × MockState
  | [], store, st => ([], store, st)
  | (m, a) :: rest, store, st =>
      let r := mockStep o m store st a
      let (logs, store2, st2) := runMock o rest r.store r.state
      (r :: logs, store2, st2)

theorem mockStep_eq_replay {A R E : Type} (o : MockOptions A R E) (mode : Mode)
    (store : Store) (st : MockState) (args : A) (call : SerializedCall)
    (hsnap : store (snapshotFileName o.name st.index) = some call)
    (hmatch : jsonEquals (o.serializeArgs args) call.args = true) :
    mockStep o mode store st args =
      { outcome := match call.result with
          | .success d => .value (o.deserializeSuccess d)
          | .failure e => .thrown (o.deserializeError e),
        state := { st with index := st.index + 1 }, store := store,
        fnCalls := 0, saved := false } := by
  rw [mockStep]
  simp only [hsnap, hmatch, if_pos]
  cases call.result <;> rfl

theorem mockStep_eq_create {A R E : Type} (o : MockOptions A R E) (mode : Mode)
    (store : Store) (st : MockState) (args : A)
    (hsnap : store (snapshotFileName o.name st.index) = none)
    (hmode : inMode mode [.CREATE, .CREATE_AND_UPDATE] = true) :
    mockStep o mode store st args =
      callFunctionAndSaveSnapshot o args (snapshotFileName o.name st.index) false store
        { st with index := st.index + 1 } := by
  rw [mockStep]
  simp only [hsnap, hmode, if_pos]

theorem mockStep_eq_failNoSnapshot {A R E : Type} (o : MockOptions A R E)
    (store : Store) (st : MockState) (args : A)
    (hsnap : store (snapshotFileName o.name st.index) = none) :
    mockStep o .NONE store st args =
      { outcome := .snapshotMismatch ⟨o.serializeArgs args, .success .null⟩,
        state := { st with index := st.index + 1 }, store := store,
        fnCalls := 0, saved := false } := by
  rw [mockStep]
  simp only [hsnap]
  rfl

theorem mockStep_eq_update {A R E : Type} (o : MockOptions A R E)
    (store : Store) (st : MockState) (args : A) (call : SerializedCall)
    (hsnap : store (snapshotFileName o.name st.index) = some call)
    (hmatch : jsonEquals (o.serializeArgs args) call.args = false) :
    mockStep o .CREATE_AND_UPDATE store st args =
      callFunctionAndSaveSnapshot o args (snapshotFileName o.name st.index)
        o.allowOnlyOneUpdatePerTest store { st with index := st.index + 1 } := by
  rw [mockStep]
  simp only [hsnap, hmatch]
  rfl

theorem mockStep_eq_failArgsMismatch {A R E : Type} (o : MockOptions A R E) (mode : Mode)
    (store : Store) (st : MockState) (args : A) (call : SerializedCall)
    (hsnap : store (snapshotFileName o.name st.index) = some call)
    (hmatch : jsonEquals (o.serializeArgs args) call.args = false)
    (hmode : mode = .NONE ∨ mode = .CREATE) :
    mockStep o mode store st args =
      { outcome := .snapshotMismatch ⟨o.serializeArgs args, call.result⟩,
        state := { st with index := st.index + 1 }, store := store,
        fnCalls := 0, saved := false } := by
  rw [mockStep]
  simp only [hsnap, hmatch]
  rcases hmode with rfl | rfl <;> rfl

theorem saveSnapshot_guardError {A R E : Type} (o : MockOptions A R E) (args : A)
    (file : String) (store : Store) (st : MockState) (hcnt : st.updatedCount > 0) :
    callFunctionAndSaveSnapshot o args file true store st =
      { outcome := .guardError, state := st, store := store, fnCalls := 0, saved := false } := by
  rw [callFunctionAndSaveSnapshot, if_pos ⟨rfl, hcnt⟩]

theorem saveSnapshot_saves {A R E : Type} (o : MockOptions A R E) (args : A)
    (file : String) (guardFlag : Bool) (store : Store) (st : MockState)
    (h : guardFlag = false ∨ st.updatedCount = 0) :
    callFunctionAndSaveSnapshot o args file guardFlag store st =
      (match o.fn args with
      | .ok v =>
          { outcome := .value v, state := { st with updatedCount := st.updatedCount + 1 },
            store := fun f => if f = file then
              some ⟨o.serializeArgs args, .success (o.serializeSuccess v)⟩ else store f,
            fnCalls := 1, saved := true }
      | .thrown e =>
          { outcome := .thrown e, state := { st with updatedCount := st.updatedCount + 1 },
            store := fun f => if f = file then
              some ⟨o.serializeArgs args, .failure (o.serializeError e)⟩ else store f,
            fnCalls := 1, saved := true }) := by
  have hneg : ¬(guardFlag = true ∧ st.updatedCount > 0) := by
    rcases h with rfl | h
    · simp
    · simp [h]
  rw [callFunctionAndSaveSnapshot, if_neg hneg]

theorem saveSnapshot_updatedCount {A R E : Type} (o : MockOptions A R E) (args : A)
    (file : String) (g : Bool) (store : Store) (st : MockState) :
    (callFunctionAndSaveSnapshot o args file g store st).state.updatedCount =
      st.updatedCount +
        (if (callFunctionAndSaveSnapshot o args file g store st).saved = true then 1 else 0) := by
  rw [callFunctionAndSaveSnapshot]
  split
  · simp
  · cases o.fn args <;> simp

theorem saveSnapshot_index {A R E : Type} (o : MockOptions A R E) (args : A)
    (file : String) (g : Bool) (store : Store) (st : MockState) :
    (callFunctionAndSaveSnapshot o args file g store st).state.index = st.index := by
  rw [callFunctionAndSaveSnapshot]
  split
  · rfl
  · cases o.fn args <;> rfl

theorem mockStep_updatedCount {A R E : Type} (o : MockOptions A R E) (m : Mode)
    (store : Store) (st : MockState) (a : A) :
    (mockStep o m store st a).state.updatedCount =
      st.updatedCount + (if (mockStep o m store st a).saved = true then 1 else 0) := by
  rw [mockStep]
  cases store (snapshotFileName o.name st.index) with
  | none =>
      by_cases hmode : inMode m [.CREATE, .CREATE_AND_UPDATE] = true
      · simp only [hmode, if_pos]
        exact saveSnapshot_updatedCount o a _ false store _
      · simp only [Bool.not_eq_true] at hmode
        simp [hmode]
  | some call =>
      by_cases hmatch : jsonEquals (o.serializeArgs a) call.args = true
      · simp only [hmatch, if_pos]
        cases call.result <;> simp
      · simp only [Bool.not_eq_true] at hmatch
        simp only [hmatch]
        by_cases hmode : inMode m [.CREATE_AND_UPDATE] = true
        · simp only [hmode, if_pos, Bool.false_eq_true, if_false]
          exact saveSnapshot_updatedCount o a _ o.allowOnlyOneUpdatePerTest store _
        · simp only [Bool.not_eq_true] at hmode
          simp [hmode]

theorem mockStep_index {A R E : Type} (o : MockOptions A R E) (m : Mode)
    (store : Store) (st : MockState) (a : A) :
    (mockStep o m store st a).state.index = st.index + 1 := by
  rw [mockStep]
  cases store (snapshotFileName o.name st.index) with
  | none =>
      by_cases hmode : inMode m [.CREATE, .CREATE_AND_UPDATE] = true
      · simp only [hmode, if_pos]
        exact saveSnapshot_index o a _ false store _
      · simp only [Bool.not_eq_true] at hmode
        simp [hmode]
  | some call =>
      by_cases hmatch : jsonEquals (o.serializeArgs a) call.args = true
      · simp only [hmatch, if_pos]
        cases call.result <;> simp
      · simp only [Bool.not_eq_true] at hmatch
        simp only [hmatch]
        by_cases hmode : inMode m [.CREATE_AND_UPDATE] = true
        · simp only [hmode, if_pos, Bool.false_eq_true, if_false]
          exact saveSnapshot_index o a _ o.allowOnlyOneUpdatePerTest store _
        · simp only [Bool.not_eq_true] at hmode
          simp [hmode]

theorem runMock_nil {A R E : Type} (o : MockOptions A R E) (store : Store) (st : MockState) :
    runMock o [] store st = ([], store, st) := rfl

theorem runMock_cons {A R E : Type} (o : MockOptions A R E) (m : Mode) (a : A)
    (rest : List (Mode × A)) (store : Store) (st : MockState) :
    runMock o ((m, a) :: rest) store st =
      ((mockStep o m store st a) ::
        (runMock o rest (mockStep o m store st a).store (mockStep o m store st a).state).1,
       (runMock o rest (mockStep o m store st a).store (mockStep o m store st a).state).2.1,
       (runMock o rest (mockStep o m store st a).store (mockStep o m store st a).state).2.2) := rfl

theorem runMock_updatedCount {A R E : Type} (o : MockOptions A R E)
    (calls : List (Mode × A)) (store : Store) (st : MockState) :
    (runMock o calls store st).2.2.updatedCount =
      st.updatedCount + ((runMock o calls store st).1.filter (fun r => r.saved)).length := by
  induction calls generalizing store st with
  | nil => simp [runMock_nil]
  | cons p rest ih =>
      obtain ⟨m, a⟩ := p
      rw [runMock_cons]
      simp only []
      rw [ih, mockStep_updatedCount]
      by_cases h : (mockStep o m store st a).saved = true
      · simp [h, List.filter]
        omega
      · simp only [Bool.not_eq_true] at h
        simp [h, List.filter]

/-- C2: when a well-formed record exists at the current call index and the
serialized current arguments structurally equal the stored args, then in
every mode the real function is not invoked, nothing is persisted, and the
mock resolves with deserialize.success of the stored data when the result is
tagged success, or rejects with deserialize.error of the stored error when it
is tagged failure. -/
theorem C2_replay_without_invocation {A R E : Type} (o : MockOptions A R E) (mode : Mode)
    (store : Store) (st : MockState) (args : A) (call : SerializedCall)
    (hsnap : store (snapshotFileName o.name st.index) = some call)
    (hmatch : jsonEquals (o.serializeArgs args) call.args = true) :
    (mockStep o mode store st args).fnCalls = 0 ∧
    (mockStep o mode store st args).saved = false ∧
    (mockStep o mode store st args).store = store ∧
    (∀ d, call.result = .success d →
      (mockStep o mode store st args).outcome = .value (o.deserializeSuccess d)) ∧
    (∀ e, call.result = .failure e →
      (mockStep o mode store st args).outcome = .thrown (o.deserializeError e)) := by
  rw [mockStep_eq_replay o mode store st args call hsnap hmatch]
  refine ⟨rfl, rfl, rfl, ?_, ?_⟩
  · intro d hd
    rw [hd]
  · intro e he
    rw [he]

/-- C3: the real function is never invoked when the mode does not license the
required write. In mode NONE no path invokes it or persists anything, the
no-record path fails with the null-baseline comparison, and the mismatch path
fails with the stored-versus-attempted comparison; in mode CREATE it is
invoked exactly when no record exists at the current call index, and an args
mismatch against an existing record fails the same way without an
invocation. -/
theorem C3_no_unlicensed_invocation {A R E : Type} (o : MockOptions A R E)
    (store : Store) (st : MockState) (args : A) :
    (mockStep o .NONE store st args).fnCalls = 0 ∧
    (mockStep o .NONE store st args).saved = false ∧
    (store (snapshotFileName o.name st.index) = none →
      (mockStep o .NONE store st args).outcome =
        .snapshotMismatch ⟨o.serializeArgs args, .success .null⟩) ∧
    (∀ call, store (snapshotFileName o.name st.index) = some call →
      jsonEquals (o.serializeArgs args) call.args = false →
      (mockStep o .NONE store st args).outcome =
        .snapshotMismatch ⟨o.serializeArgs args, call.result⟩ ∧
      (mockStep o .CREATE store st args).outcome =
        .snapshotMismatch ⟨o.serializeArgs args, call.result⟩) ∧
    (∀ call, store (snapshotFileName o.name st.index) = some call →
      (mockStep o .CREATE store st args).fnCalls = 0 ∧
      (mockStep o .CREATE store st args).saved = false) ∧
    (store (snapshotFileName o.name st.index) = none →
      (mockStep o .CREATE store st args).fnCalls = 1) := by
  refine ⟨?_, ?_, ?_, ?_, ?_, ?_⟩
  · cases hsnap : store (snapshotFileName o.name st.index) with
    | none => rw [mockStep_eq_failNoSnapshot o store st args hsnap]
    | some call =>
        by_cases hmatch : jsonEquals (o.serializeArgs args) call.args = true
        · rw [mockStep_eq_replay o .NONE store st args call hsnap hmatch]
        · rw [Bool.not_eq_true] at hmatch
          rw [mockStep_eq_failArgsMismatch o .NONE store st args call hsnap hmatch (Or.inl rfl)]
  · cases hsnap : store (snapshotFileName o.name st.index) with
    | none => rw [mockStep_eq_failNoSnapshot o store st args hsnap]
    | some call =>
        by_cases hmatch : jsonEquals (o.serializeArgs args) call.args = true
        · rw [mockStep_eq_replay o .NONE store st args call hsnap hmatch]
        · rw [Bool.not_eq_true] at hmatch
          rw [mockStep_eq_failArgsMismatch o .NONE store st args call hsnap hmatch (Or.inl rfl)]
  · intro hsnap
    rw [mockStep_eq_failNoSnapshot o store st args hsnap]
  · intro call hsnap hmatch
    constructor
    · rw [mockStep_eq_failArgsMismatch o .NONE store st args call hsnap hmatch (Or.inl rfl)]
    · rw [mockStep_eq_failArgsMismatch o .CREATE store st args call hsnap hmatch (Or.inr rfl)]
  · intro call hsnap
    by_cases hmatch : jsonEquals (o.serializeArgs args) call.args = true
    · rw [mockStep_eq_replay o .CREATE store st args call hsnap hmatch]
      cases call.result <;> exact ⟨rfl, rfl⟩
    · rw [Bool.not_eq_true] at hmatch
      rw [mockStep_eq_failArgsMismatch o .CREATE store st args call hsnap hmatch (Or.inr rfl)]
      exact ⟨rfl, rfl⟩
  · intro hsnap
    rw [mockStep_eq_create o .CREATE store st args hsnap rfl]
    rw [saveSnapshot_saves o args _ false store _ (Or.inl rfl)]
    cases o.fn args <;> rfl

/-- C6: every persisted save, creation as well as overwrite, increments the
single shared update counter of the fixture instance; a creation is itself
never rejected by the guard; consequently, when allowOnlyOneUpdatePerTest is
enabled, an overwrite attempt is rejected whenever any earlier invocation of
the same run persisted a record, creation or overwrite, even when no
overwrite has happened yet. -/
theorem C6_shared_update_counter {A R E : Type} (o : MockOptions A R E) :
    (∀ (m : Mode) (store : Store) (st : MockState) (a : A),
      (mockStep o m store st a).saved = true →
      (mockStep o m store st a).state.updatedCount = st.updatedCount + 1) ∧
    (∀ (m : Mode) (store : Store) (st : MockState) (a : A),
      store (snapshotFileName o.name st.index) = none →
      inMode m [.CREATE, .CREATE_AND_UPDATE] = true →
      (mockStep o m store st a).outcome ≠ .guardError ∧
      (mockStep o m store st a).saved = true ∧
      (mockStep o m store st a).fnCalls = 1) ∧
    (o.allowOnlyOneUpdatePerTest = true →
      ∀ (pre : List (Mode × A)) (store0 : Store) (logs : List (StepResult A R E))
        (store1 : Store) (st1 : MockState),
        runMock o pre store0 mockStateInit = (logs, store1, st1) →
        (∃ r ∈ logs, r.saved = true) →
        ∀ (a : A) (call : SerializedCall),
          store1 (snapshotFileName o.name st1.index) = some call →
          jsonEquals (o.serializeArgs a) call.args = false →
          (mockStep o .CREATE_AND_UPDATE store1 st1 a).outcome = .guardError) := by
  refine ⟨?_, ?_, ?_⟩
  · intro m store st a hsaved
    rw [mockStep_updatedCount, hsaved]
    simp
  · intro m store st a hsnap hmode
    rw [mockStep_eq_create o m store st a hsnap hmode]
    rw [saveSnapshot_saves o a _ false store _ (Or.inl rfl)]
    cases o.fn a with
    | ok v => exact ⟨fun hc => StepOutcome.noConfusion hc, rfl, rfl⟩
    | thrown e => exact ⟨fun hc => StepOutcome.noConfusion hc, rfl, rfl⟩
  · intro hguard pre store0 logs store1 st1 hrun hex a call hsnap hmism
    have hcnt : st1.updatedCount > 0 := by
      have h1 := runMock_updatedCount o pre store0 mockStateInit
      rw [hrun] at h1
      simp only [mockStateInit] at h1
      obtain ⟨r, hr, hsaved⟩ := hex
      have hmem : r ∈ logs.filter (fun r => r.saved) :=
        List.mem_filter.mpr ⟨hr, hsaved⟩
      have hpos := List.length_pos.mpr (List.ne_nil_of_mem hmem)
      omega
    rw [mockStep_eq_update o store1 st1 a call hsnap hmism, hguard]
    rw [saveSnapshot_guardError o a _ store1
      { updatedCount := st1.updatedCount, index := st1.index + 1 } hcnt]

/-- C1 (amended): with the single-update policy enabled and a fresh fixture
instance, an overwrite attempt (existing record at the current index,
mismatched args, mode CREATE_AND_UPDATE) succeeds exactly when no earlier
invocation of the run has persisted a record, a creation counting as much as
an overwrite: in that case the attempt invokes the real function exactly
once, persists the fresh outcome and increments the update counter; otherwise
it fails fast with the distinct explicit guard error, persisting nothing and
not invoking the real function. -/
theorem C1_single_update_policy {A R E : Type} (o : MockOptions A R E)
    (h : o.allowOnlyOneUpdatePerTest = true)
    (pre : List (Mode × A)) (store0 : Store)
    (logs : List (StepResult A R E)) (store1 : Store) (st1 : MockState)
    (hrun : runMock o pre store0 mockStateInit = (logs, store1, st1))
    (a : A) (call : SerializedCall)
    (hsnap : store1 (snapshotFileName o.name st1.index) = some call)
    (hmism : jsonEquals (o.serializeArgs a) call.args = false) :
    ((∀ r ∈ logs, r.saved = false) →
      (mockStep o .CREATE_AND_UPDATE store1 st1 a).saved = true ∧
      (mockStep o .CREATE_AND_UPDATE store1 st1 a).fnCalls = 1 ∧
      (mockStep o .CREATE_AND_UPDATE store1 st1 a).state.updatedCount = st1.updatedCount + 1 ∧
      (mockStep o .CREATE_AND_UPDATE store1 st1 a).outcome ≠ .guardError) ∧
    ((∃ r ∈ logs, r.saved = true) →
      (mockStep o .CREATE_AND_UPDATE store1 st1 a).outcome = .guardError ∧
      (mockStep o .CREATE_AND_UPDATE store1 st1 a).saved = false ∧
      (mockStep o .CREATE_AND_UPDATE store1 st1 a).fnCalls = 0 ∧
      (mockStep o .CREATE_AND_UPDATE store1 st1 a).store = store1) := by
  constructor
  · intro hnone
    have hcnt : st1.updatedCount = 0 := by
      have h1 := runMock_updatedCount o pre store0 mockStateInit
      rw [hrun] at h1
      simp only [mockStateInit] at h1
      have hfil : logs.filter (fun r => r.saved) = [] := by
        rw [List.filter_eq_nil_iff]
        intro r hr
        simp [hnone r hr]
      rw [hfil] at h1
      simpa using h1
    rw [mockStep_eq_update o store1 st1 a call hsnap hmism]
    rw [saveSnapshot_saves o a _ o.allowOnlyOneUpdatePerTest store1
      { updatedCount := st1.updatedCount, index := st1.index + 1 } (Or.inr hcnt)]
    cases o.fn a with
    | ok v => exact ⟨rfl, rfl, by simp [hcnt], fun hc => StepOutcome.noConfusion hc⟩
    | thrown e => exact ⟨rfl, rfl, by simp [hcnt], fun hc => StepOutcome.noConfusion hc⟩
  · intro hex
    have hcnt : st1.updatedCount > 0 := by
      have h1 := runMock_updatedCount o pre store0 mockStateInit
      rw [hrun] at h1
      simp only [mockStateInit] at h1
      obtain ⟨r, hr, hsaved⟩ := hex
      have hmem : r ∈ logs.filter (fun r => r.saved) :=
        List.mem_filter.mpr ⟨hr, hsaved⟩
      have hpos := List.length_pos.mpr (List.ne_nil_of_mem hmem)
      omega
    rw [mockStep_eq_update o store1 st1 a call hsnap hmism, h]
    rw [saveSnapshot_guardError o a _ store1
      { updatedCount := st1.updatedCount, index := st1.index + 1 } hcnt]
    exact ⟨rfl, rfl, rfl, rfl⟩

/-- A concrete fixture for the witnesses: arguments, results and errors are
JSON values, all serializers are the identity, the real function resolves
with 7 for every argument, and the single-update policy is enabled. -/
def exOptions : MockOptions Json Json Json :=
  { name := "t", fn := fun _ => .ok (.num 7), serializeArgs := id,
    serializeSuccess := id, serializeError := id, deserializeSuccess := id,
    deserializeError := id, allowOnlyOneUpdatePerTest := true }

/-- A folder holding one record, at the first call index. -/
def exStore : Store := fun f =>
  if f = snapshotFileName "t" 0 then some ⟨.num 1, .success (.num 3)⟩ else none

/-- A folder holding one mismatched record at the second call index and no
record at the first. -/
def exStore2 : Store := fun f =>
  if f = snapshotFileName "t" 1 then some ⟨.num 0, .success (.num 0)⟩ else none

/-- An empty folder. -/
def exEmptyStore : Store := fun _ => none

theorem exFileName_ne : snapshotFileName "t" 0 ≠ snapshotFileName "t" 1 :=
  ne_of_lt (snapshotFileName_lt "t" 1 2 (by decide) (by decide) (by decide))

/-- What the first call of the counterexample run produces: a created record
at index 0 and an incremented update counter. -/
def exStep1Result : StepResult Json Json Json :=
  { outcome := .value (.num 7),
    state := { updatedCount := 1, index := 1 },
    store := fun f => if f = snapshotFileName "t" 0 then
      some ⟨.num 5, .success (.num 7)⟩ else exStore2 f,
    fnCalls := 1, saved := true }

theorem exStep1_eq :
    mockStep exOptions .CREATE_AND_UPDATE exStore2 mockStateInit (.num 5) = exStep1Result := by
  have hsnap : exStore2 (snapshotFileName exOptions.name mockStateInit.index) = none := by
    show exStore2 (snapshotFileName "t" 0) = none
    rw [exStore2, if_neg exFileName_ne]
  rw [mockStep_eq_create exOptions .CREATE_AND_UPDATE exStore2 mockStateInit (.num 5) hsnap rfl]
  rw [saveSnapshot_saves exOptions (.num 5) _ false exStore2 _ (Or.inl rfl)]
  rfl

theorem exStep1_snap :
    exStep1Result.store (snapshotFileName exOptions.name exStep1Result.state.index) =
      some ⟨.num 0, .success (.num 0)⟩ := by
  show (if snapshotFileName "t" 1 = snapshotFileName "t" 0 then
      some (⟨.num 5, .success (.num 7)⟩ : SerializedCall)
    else exStore2 (snapshotFileName "t" 1)) = some ⟨.num 0, .success (.num 0)⟩
  rw [if_neg (Ne.symm exFileName_ne), exStore2, if_pos rfl]

theorem exMismatch : jsonEquals (exOptions.serializeArgs (.num 5)) (.num 0) = false := by
  show jsonEquals (.num 5) (.num 0) = false
  rw [jsonEquals]
  decide

/-- What the second call of the counterexample run produces: the guard
rejection. -/
def exStep2Result : StepResult Json Json Json :=
  { outcome := .guardError, state := { updatedCount := 1, index := 2 },
    store := exStep1Result.store, fnCalls := 0, saved := false }

theorem exStep2_eq :
    mockStep exOptions .CREATE_AND_UPDATE exStep1Result.store exStep1Result.state (.num 5) =
      exStep2Result := by
  rw [mockStep_eq_update exOptions exStep1Result.store exStep1Result.state (.num 5)
    ⟨.num 0, .success (.num 0)⟩ exStep1_snap exMismatch]
  have hguard : exOptions.allowOnlyOneUpdatePerTest = true := rfl
  rw [hguard]
  rw [saveSnapshot_guardError exOptions (.num 5) _ exStep1Result.store
    { updatedCount := exStep1Result.state.updatedCount,
      index := exStep1Result.state.index + 1 } (by decide)]
  rfl

/-- C1 counterexample: with the policy enabled, a concrete CREATE_AND_UPDATE
run whose first invocation creates a record (no record exists at index 0) and
whose second invocation is the first and only overwrite attempt of the run (a
mismatched record exists at index 1). The first overwrite attempt does not
succeed: it is rejected with the guard error without invoking the real
function, because the creation already incremented the counter. This refutes
the claim that the first record overwrite of every run succeeds. -/
theorem C1_counterexample :
    runMock exOptions [(.CREATE_AND_UPDATE, .num 5), (.CREATE_AND_UPDATE, .num 5)]
        exStore2 mockStateInit
      = ([exStep1Result, exStep2Result], exStep2Result.store, exStep2Result.state) ∧
    exStore2 (snapshotFileName "t" 0) = none ∧
    exStep1Result.saved = true ∧
    exStep1Result.store (snapshotFileName "t" 1) = some ⟨.num 0, .success (.num 0)⟩ ∧
    jsonEquals (.num 5) (.num 0) = false ∧
    exStep2Result.outcome = .guardError ∧
    exStep2Result.saved = false ∧
    exStep2Result.fnCalls = 0 := by
  refine ⟨?_, ?_, rfl, exStep1_snap, exMismatch, rfl, rfl, rfl⟩
  · rw [runMock_cons, exStep1_eq, runMock_cons, exStep2_eq, runMock_nil]
  · rw [exStore2, if_neg exFileName_ne]

/-- Witness for the amended C1 at a concrete empty prefix (the first branch:
the overwrite is the first persist of the run and succeeds) and at the
counterexample prefix (the second branch: an earlier creation makes the
overwrite fail with the guard error). -/
theorem C1_witness :
    ((mockStep exOptions .CREATE_AND_UPDATE exStore mockStateInit (.num 0)).saved = true ∧
      (mockStep exOptions .CREATE_AND_UPDATE exStore mockStateInit (.num 0)).fnCalls = 1 ∧
      (mockStep exOptions .CREATE_AND_UPDATE exStore mockStateInit
          (.num 0)).state.updatedCount = mockStateInit.updatedCount + 1 ∧
      (mockStep exOptions .CREATE_AND_UPDATE exStore mockStateInit (.num 0)).outcome ≠
        .guardError) ∧
    ((mockStep exOptions .CREATE_AND_UPDATE exStep1Result.store exStep1Result.state
        (.num 5)).outcome = .guardError ∧
      (mockStep exOptions .CREATE_AND_UPDATE exStep1Result.store exStep1Result.state
        (.num 5)).saved = false ∧
      (mockStep exOptions .CREATE_AND_UPDATE exStep1Result.store exStep1Result.state
        (.num 5)).fnCalls = 0 ∧
      (mockStep exOptions .CREATE_AND_UPDATE exStep1Result.store exStep1Result.state
        (.num 5)).store = exStep1Result.store) := by
  constructor
  · refine (C1_single_update_policy exOptions rfl [] exStore [] exStore mockStateInit rfl
      (.num 0) ⟨.num 1, .success (.num 3)⟩ ?_ ?_).1 ?_
    · show exStore (snapshotFileName "t" 0) = some ⟨.num 1, .success (.num 3)⟩
      rw [exStore, if_pos rfl]
    · show jsonEquals (.num 0) (.num 1) = false
      rw [jsonEquals]
      decide
    · intro r hr
      simp at hr
  · refine (C1_single_update_policy exOptions rfl [(.CREATE_AND_UPDATE, .num 5)] exStore2
      [exStep1Result] exStep1Result.store exStep1Result.state ?_ (.num 5)
      ⟨.num 0, .success (.num 0)⟩ exStep1_snap exMismatch).2 ?_
    · rw [runMock_cons, exStep1_eq, runMock_nil]
    · exact ⟨exStep1Result, List.mem_singleton.mpr rfl, rfl⟩

/-- Witness for C2: a matching record replays the stored success without a
real invocation, in mode NONE. -/
theorem C2_witness :
    (mockStep exOptions .NONE exStore mockStateInit (.num 1)).fnCalls = 0 ∧
    (mockStep exOptions .NONE exStore mockStateInit (.num 1)).store = exStore ∧
    (mockStep exOptions .NONE exStore mockStateInit (.num 1)).outcome = .value (.num 3) := by
  have hsnap : exStore (snapshotFileName exOptions.name mockStateInit.index) =
      some ⟨.num 1, .success (.num 3)⟩ := by
    show exStore (snapshotFileName "t" 0) = some ⟨.num 1, .success (.num 3)⟩
    rw [exStore, if_pos rfl]
  have hmatch : jsonEquals (exOptions.serializeArgs (.num 1)) (.num 1) = true := by
    show jsonEquals (.num 1) (.num 1) = true
    rw [jsonEquals]
    decide
  have h := C2_replay_without_invocation exOptions .NONE exStore mockStateInit (.num 1)
    ⟨.num 1, .success (.num 3)⟩ hsnap hmatch
  exact ⟨h.1, h.2.2.1, h.2.2.2.1 (.num 3) rfl⟩

/-- Witness for C3: mode NONE never invokes the real function; mode CREATE
does not invoke it against an existing record and invokes it once when no
record exists. -/
theorem C3_witness :
    (mockStep exOptions .NONE exStore mockStateInit (.num 0)).fnCalls = 0 ∧
    (mockStep exOptions .CREATE exStore mockStateInit (.num 0)).fnCalls = 0 ∧
    (mockStep exOptions .CREATE exEmptyStore mockStateInit (.num 0)).fnCalls = 1 := by
  have hsnap : exStore (snapshotFileName exOptions.name mockStateInit.index) =
      some ⟨.num 1, .success (.num 3)⟩ := by
    show exStore (snapshotFileName "t" 0) = some ⟨.num 1, .success (.num 3)⟩
    rw [exStore, if_pos rfl]
  refine ⟨(C3_no_unlicensed_invocation exOptions exStore mockStateInit (.num 0)).1,
    ((C3_no_unlicensed_invocation exOptions exStore mockStateInit (.num 0)).2.2.2.2.1
      ⟨.num 1, .success (.num 3)⟩ hsnap).1,
    (C3_no_unlicensed_invocation exOptions exEmptyStore mockStateInit (.num 0)).2.2.2.2.2 rfl⟩

/-- Witness for C6: after a run whose only step is a creation, the overwrite
attempt of the next invocation is rejected by the guard. -/
theorem C6_witness :
    (mockStep exOptions .CREATE_AND_UPDATE exStep1Result.store exStep1Result.state
      (.num 5)).outcome = .guardError := by
  refine (C6_shared_update_counter exOptions).2.2 rfl [(.CREATE_AND_UPDATE, .num 5)] exStore2
    [exStep1Result] exStep1Result.store exStep1Result.state ?_
    ⟨exStep1Result, List.mem_singleton.mpr rfl, rfl⟩ (.num 5) ⟨.num 0, .success (.num 0)⟩
    exStep1_snap exMismatch
  rw [runMock_cons, exStep1_eq, runMock_nil]

/-- A value thrown by a JavaScript function as seen by the default error
codec: a plain base Error instance (prototype exactly Error.prototype)
carrying a message, or any other thrown value, carrying the constructor name
the source would report (none when the value is not a non-null object). -/
inductive ErrorValue where
  | baseError : String → ErrorValue
  | other : Option String → ErrorValue

/-- serializeError from src/mock-fn-record-and-replay.ts: accepts only a
plain base Error and serializes it to a message-only object; any other value
raises a descriptive error naming the constructor. -/
def serializeError : ErrorValue → Except String Json
  | .baseError msg => .ok (.obj [("message", .str msg)])
  | .other ctor =>
      .error ("Cannot serialize non-Error object (constructor: " ++
        ctor.getD "unknown" ++ ") " ++
        "Extend serialize.error/deserialize.error to support that error type.")

/-- deserializeError from src/mock-fn-record-and-replay.ts: rebuilds an Error
from a non-null object whose message property is a string; anything else
raises. -/
def deserializeError : Json → Except String ErrorValue
  | .obj xs =>
      match xs.lookup "message" with
      | some (.str m) => .ok (.baseError m)
      | _ => .error "Cannot deserialize error from invalid object"
  | _ => .error "Cannot deserialize error from invalid object"

/-- C8: for any error accepted by the default codec (a plain base Error), the
round trip deserializeError of serializeError reproduces an error with the
same message, and serializing the reconstruction again yields a JSON value
jsonEquals-equal to the original serialization. -/
theorem C8_error_codec_roundtrip (e : ErrorValue) (j : Json)
    (h : serializeError e = .ok j) :
    ∃ m, e = .baseError m ∧ deserializeError j = .ok (.baseError m) ∧
      serializeError (.baseError m) = .ok j ∧ jsonEquals j j = true := by
  cases e with
  | baseError m =>
      have hj : j = .obj [("message", .str m)] := by
        rw [serializeError] at h
        cases h
        rfl
      subst hj
      exact ⟨m, rfl, by rw [deserializeError]; rfl, rfl, jsonEquals_refl _⟩
  | other c =>
      rw [serializeError] at h
      exact absurd h (by simp)

/-- Witness for C8 at a concrete base error. -/
theorem C8_witness :
    ∃ m, ErrorValue.baseError "boom" = .baseError m ∧
      deserializeError (.obj [("message", .str "boom")]) = .ok (.baseError m) ∧
      serializeError (.baseError m) = .ok (.obj [("message", .str "boom")]) ∧
      jsonEquals (.obj [("message", .str "boom")]) (.obj [("message", .str "boom")]) = true :=
  C8_error_codec_roundtrip (.baseError "boom") (.obj [("message", .str "boom")]) rfl
